import Mathlib

/-!
Verification development for the FrameScout frame-extraction pipeline
(`src/utils/videoUtils.ts` and the extraction paths of `src/App.tsx`).

Embedding conventions:
* Times and durations are rationals (`ℚ`); the source's floating-point
  arithmetic is modelled exactly over `ℚ`.
* The ambient random source (`Math.random()`, values in `[0,1)`) is an
  explicit argument `rand : ℕ → ℚ`, giving the draw used at loop index `i`.
* The canvas 2D context acquisition is the boolean `ctxOk`; the JPEG encoder
  (`canvas.toBlob`) is an oracle `encode` returning `none` when the encoder
  refuses and `some b` (an opaque byte-blob identifier) on success.
* `Screenshot.id` (a fresh UUID) and `url` (an object URL) are opaque
  environment-generated handles irrelevant to every claim and are omitted.
* Seek requests (`video.currentTime = t` + awaiting `seeked`) are recorded in
  a `seeks` trace; the source awaits each seek sequentially, so the trace
  order is the request order.
-/

/-- Model of a produced screenshot (fields `timestamp`, `fileName`, and the
encoded image blob; cf. `Screenshot` in `src/types.ts`). -/
structure Screenshot where
  blob : ℕ
  timestamp : ℚ
  fileName : String
  deriving DecidableEq, Repr

/-- JavaScript `Math.round`: round half toward positive infinity. -/
def jsRound (q : ℚ) : ℤ := ⌊q + 1/2⌋

/-- Two-digit zero-padded decimal rendering of a component of a timestamp. -/
def pad2 (n : ℕ) : String := if n < 10 then "0" ++ toString n else toString n

/-- The `HH-MM-SS` timestamp string: the source computes
`new Date(time * 1000).toISOString().substr(11, 8).replace(/:/g, '-')`,
i.e. whole seconds `⌊time⌋` split into hour-of-day, minute, second fields,
colon-separated fields replaced by hyphens. -/
def hhmmss (t : ℚ) : String :=
  let s : ℕ := (⌊t⌋).toNat
  pad2 (s / 3600 % 24) ++ "-" ++ pad2 (s % 3600 / 60) ++ "-" ++ pad2 (s % 60)

/-- Result of `captureFrame`: the (possibly null) encoded blob and the canvas
raster dimensions. -/
structure CaptureResult where
  blob : Option ℕ
  width : ℕ
  height : ℕ
  deriving DecidableEq, Repr

/-- Model of `captureFrame(video, scale)` in `src/utils/videoUtils.ts`:
`scaleFactor = max(0.1, min(1, scale / 100))`, canvas dimensions
`floor(videoWidth * scaleFactor)` by `floor(videoHeight * scaleFactor)`;
if the 2D context cannot be acquired the result is
`{ blob: null, width: 0, height: 0 }`, otherwise the blob is whatever
`canvas.toBlob` produced (the `encodeResult` oracle). -/
def captureFrame (W H : ℕ) (scale : ℚ) (ctxOk : Bool) (encodeResult : Option ℕ) :
    CaptureResult :=
  let scaleFactor := max (1/10) (min 1 (scale / 100))
  let w := (⌊(W : ℚ) * scaleFactor⌋).toNat
  let h := (⌊(H : ℚ) * scaleFactor⌋).toNat
  if ctxOk then { blob := encodeResult, width := w, height := h }
  else { blob := none, width := 0, height := 0 }

/-- The clamp applied to every planned timestamp:
`Math.max(0.1, Math.min(duration - 0.1, t))` — upper bound first, lower
bound `0.1` last. -/
def clampTs (duration t : ℚ) : ℚ := max (1/10) (min (duration - 1/10) t)

/-- The candidate timestamp at 0-based index `i` before clamping:
`t = step * (i + 1)` with `step = duration / (count + 1)`; with jitter a
random offset `(rand i - 0.5) * (step * 0.8)` is added. -/
def rawTimestamp (duration : ℚ) (count : ℕ) (randomize : Bool) (rand : ℕ → ℚ)
    (i : ℕ) : ℚ :=
  let step := duration / (count + 1)
  let t := step * (i + 1)
  if randomize then t + (rand i - 1/2) * (step * (8/10)) else t

/-- The timestamp planner inside `extractFrames`: clamp each candidate, then
sort ascending (the source's `.sort((a, b) => a - b)` is a stable ascending
sort, modelled by `List.insertionSort`). -/
def planTimestamps (duration : ℚ) (count : ℕ) (randomize : Bool)
    (rand : ℕ → ℚ) : List ℚ :=
  ((List.range count).map
    (fun i => clampTs duration (rawTimestamp duration count randomize rand i))).insertionSort
    (· ≤ ·)

/-- Observable trace of one `extractFrames` run: the returned screenshots, the
sequence of values passed to `onProgress`, and the sequence of seek targets. -/
structure BatchTrace where
  shots : List Screenshot
  progress : List ℤ
  seeks : List ℚ
  deriving DecidableEq, Repr

/-- The sequential loop body of `extractFrames`: for each timestamp, seek,
capture, push a screenshot when the blob is non-null (skipping silently
otherwise), then report `Math.round(((i + 1) / count) * 100)`. -/
def extractLoop (W H : ℕ) (scale : ℚ) (count : ℕ) (ctxOk : Bool)
    (encode : ℕ → Option ℕ) : List ℚ → ℕ → BatchTrace
  | [], _ => ⟨[], [], []⟩
  | t :: rest, i =>
    let cap := captureFrame W H scale ctxOk (encode i)
    let tail := extractLoop W H scale count ctxOk encode rest (i + 1)
    let shots :=
      match cap.blob with
      | some b =>
        { blob := b, timestamp := t,
          fileName := "frame_" ++ hhmmss t ++ ".jpg" } :: tail.shots
      | none => tail.shots
    ⟨shots, jsRound (((i : ℚ) + 1) / count * 100) :: tail.progress, t :: tail.seeks⟩

/-- Model of `extractFrames(video, count, randomize, scale, onProgress)`:
plan the timestamps, then run the sequential capture loop from index 0. -/
def extractFrames (W H : ℕ) (duration : ℚ) (count : ℕ) (randomize : Bool)
    (scale : ℚ) (rand : ℕ → ℚ) (ctxOk : Bool) (encode : ℕ → Option ℕ) :
    BatchTrace :=
  extractLoop W H scale count ctxOk encode
    (planTimestamps duration count randomize rand) 0

/-- Observable trace of a single-frame extraction: the (possibly null) result
and the sequence of seek targets. -/
structure SingleTrace where
  result : Option Screenshot
  seeks : List ℚ
  deriving DecidableEq, Repr

/-- Model of `extractSpecificFrame(video, time, scale)`: one seek to `time`,
one capture; on a non-null blob return a screenshot named
`frame_last_<HH-MM-SS>.jpg` with `timestamp = time`, otherwise null. -/
def extractSpecificFrame (W H : ℕ) (time scale : ℚ) (ctxOk : Bool)
    (encode : Option ℕ) : SingleTrace :=
  let cap := captureFrame W H scale ctxOk encode
  match cap.blob with
  | some b =>
    ⟨some { blob := b, timestamp := time,
            fileName := "frame_last_" ++ hhmmss time ++ ".jpg" }, [time]⟩
  | none => ⟨none, [time]⟩

/-- The single timestamp used by the last-frame mode in `src/App.tsx`:
`Math.max(0, video.duration - 0.1)`. -/
def lastFrameTarget (duration : ℚ) : ℚ := max 0 (duration - 1/10)

/-- The last-frame branch of `handleProcess` in `src/App.tsx`:
`extractSpecificFrame(video, max(0, duration - 0.1), scale)`. -/
def handleProcessLastFrame (W H : ℕ) (duration scale : ℚ) (ctxOk : Bool)
    (encode : Option ℕ) : SingleTrace :=
  extractSpecificFrame W H (lastFrameTarget duration) scale ctxOk encode

/-! ### Helper lemmas about the capture loop and the planner -/

/-- The blob produced by `captureFrame` is the encoder's output when the 2D
context is available, and null otherwise. -/
lemma captureFrame_blob (W H : ℕ) (scale : ℚ) (ctxOk : Bool) (enc : Option ℕ) :
    (captureFrame W H scale ctxOk enc).blob = if ctxOk then enc else none := by
  cases ctxOk <;> simp [captureFrame]

/-- The loop seeks to every planned timestamp, in order. -/
lemma extractLoop_seeks (W H : ℕ) (scale : ℚ) (c : ℕ) (ctxOk : Bool)
    (enc : ℕ → Option ℕ) (ts : List ℚ) :
    ∀ i0, (extractLoop W H scale c ctxOk enc ts i0).seeks = ts := by
  induction ts with
  | nil => intro i0; rfl
  | cons t rest ih => intro i0; simp [extractLoop, ih]

/-- The progress report sequence of the loop, as a function of the number of
remaining timestamps and the starting index only. -/
lemma extractLoop_progress (W H : ℕ) (scale : ℚ) (c : ℕ) (ctxOk : Bool)
    (enc : ℕ → Option ℕ) (ts : List ℚ) :
    ∀ i0, (extractLoop W H scale c ctxOk enc ts i0).progress =
      (List.range ts.length).map
        (fun k => jsRound ((((i0 + k : ℕ) : ℚ) + 1) / c * 100)) := by
  induction ts with
  | nil => intro i0; rfl
  | cons t rest ih =>
    intro i0
    simp only [extractLoop, List.length_cons, List.range_succ_eq_map,
      List.map_cons, List.map_map, ih (i0 + 1)]
    refine congrArg₂ _ (by norm_num) (List.map_congr_left ?_)
    intro k _
    have h : ((i0 + 1 + k : ℕ) : ℚ) = ((i0 + (k + 1) : ℕ) : ℚ) := by push_cast; ring
    simp [Function.comp, h]

/-- When the 2D context cannot be acquired, every capture yields a null blob
and the loop accumulates no screenshots (it skips each frame silently). -/
lemma extractLoop_shots_ctxFalse (W H : ℕ) (scale : ℚ) (c : ℕ)
    (enc : ℕ → Option ℕ) (ts : List ℚ) :
    ∀ i0, (extractLoop W H scale c false enc ts i0).shots = [] := by
  induction ts with
  | nil => intro i0; rfl
  | cons t rest ih => intro i0; simp [extractLoop, captureFrame, ih]

/-- The timestamps of the accumulated screenshots form a sublist of the
planned timestamps (each success keeps its timestamp, each skip drops one). -/
lemma extractLoop_timestamps_sublist (W H : ℕ) (scale : ℚ) (c : ℕ)
    (ctxOk : Bool) (enc : ℕ → Option ℕ) (ts : List ℚ) :
    ∀ i0, List.Sublist ((extractLoop W H scale c ctxOk enc ts i0).shots.map
      Screenshot.timestamp) ts := by
  induction ts with
  | nil => intro i0; simp [extractLoop]
  | cons t rest ih =>
    intro i0
    cases h : (captureFrame W H scale ctxOk (enc i0)).blob with
    | some b =>
      simp only [extractLoop, h, List.map_cons]
      exact (ih (i0 + 1)).cons₂ t
    | none =>
      simp only [extractLoop, h]
      exact (ih (i0 + 1)).cons t

/-- Every accumulated screenshot carries a planned timestamp and the batch
file name derived from that timestamp. -/
lemma extractLoop_shots_mem (W H : ℕ) (scale : ℚ) (c : ℕ) (ctxOk : Bool)
    (enc : ℕ → Option ℕ) (ts : List ℚ) :
    ∀ i0, ∀ s ∈ (extractLoop W H scale c ctxOk enc ts i0).shots,
      s.timestamp ∈ ts ∧ s.fileName = "frame_" ++ hhmmss s.timestamp ++ ".jpg" := by
  induction ts with
  | nil => intro i0 s hs; simp [extractLoop] at hs
  | cons t rest ih =>
    intro i0 s hs
    cases h : (captureFrame W H scale ctxOk (enc i0)).blob with
    | some b =>
      simp only [extractLoop, h, List.mem_cons] at hs
      rcases hs with rfl | hs
      · exact ⟨List.mem_cons_self _ _, rfl⟩
      · obtain ⟨h1, h2⟩ := ih (i0 + 1) s hs
        exact ⟨List.mem_cons_of_mem _ h1, h2⟩
    | none =>
      simp only [extractLoop, h] at hs
      obtain ⟨h1, h2⟩ := ih (i0 + 1) s hs
      exact ⟨List.mem_cons_of_mem _ h1, h2⟩

/-- The loop accumulates at most one screenshot per planned timestamp. -/
lemma extractLoop_length_le (W H : ℕ) (scale : ℚ) (c : ℕ) (ctxOk : Bool)
    (enc : ℕ → Option ℕ) (ts : List ℚ) (i0 : ℕ) :
    (extractLoop W H scale c ctxOk enc ts i0).shots.length ≤ ts.length := by
  have h := (extractLoop_timestamps_sublist W H scale c ctxOk enc ts i0).length_le
  simpa using h

/-- With the 2D context available, the loop returns fewer screenshots than
planned timestamps exactly when some encode attempt returned null. -/
lemma extractLoop_length_lt_iff (W H : ℕ) (scale : ℚ) (c : ℕ)
    (enc : ℕ → Option ℕ) (ts : List ℚ) :
    ∀ i0, ((extractLoop W H scale c true enc ts i0).shots.length < ts.length ↔
      ∃ k < ts.length, enc (i0 + k) = none) := by
  induction ts with
  | nil => intro i0; simp [extractLoop]
  | cons t rest ih =>
    intro i0
    cases h : enc i0 with
    | none =>
      have hle := extractLoop_length_le W H scale c true enc rest (i0 + 1)
      have hblob : (captureFrame W H scale true (enc i0)).blob = none := by
        rw [captureFrame_blob, h]; rfl
      simp only [extractLoop, hblob, List.length_cons]
      refine iff_of_true (by omega) ⟨0, by omega, by simpa using h⟩
    | some b =>
      have hblob : (captureFrame W H scale true (enc i0)).blob = some b := by
        rw [captureFrame_blob, h]; rfl
      simp only [extractLoop, hblob, List.length_cons]
      rw [Nat.add_lt_add_iff_right, ih (i0 + 1)]
      constructor
      · rintro ⟨k, hk, hke⟩
        exact ⟨k + 1, by omega, by rw [show i0 + (k + 1) = i0 + 1 + k by omega]; exact hke⟩
      · rintro ⟨k, hk, hke⟩
        cases k with
        | zero => rw [Nat.add_zero] at hke; rw [h] at hke; cases hke
        | succ k' =>
          exact ⟨k', by omega, by rw [show i0 + 1 + k' = i0 + (k' + 1) by omega]; exact hke⟩

/-- The planner always returns exactly `count` timestamps. -/
lemma planTimestamps_length (d : ℚ) (c : ℕ) (rz : Bool) (rand : ℕ → ℚ) :
    (planTimestamps d c rz rand).length = c := by
  simp [planTimestamps, List.length_insertionSort]

/-- The clamp is monotone. -/
lemma clampTs_mono (d : ℚ) {a b : ℚ} (h : a ≤ b) : clampTs d a ≤ clampTs d b :=
  max_le_max le_rfl (min_le_min le_rfl h)

/-- Both clamp bounds: the result is at least `0.1` and at most
`max 0.1 (duration - 0.1)`. -/
lemma clampTs_bounds (d t : ℚ) :
    1/10 ≤ clampTs d t ∧ clampTs d t ≤ max (1/10) (d - 1/10) :=
  ⟨le_max_left _ _, max_le_max le_rfl (min_le_left _ _)⟩

/-- Every planned timestamp is clamped into `[0.1, max 0.1 (duration-0.1)]`,
for any jitter setting and any random draws. -/
lemma planTimestamps_mem_bounds (d : ℚ) (c : ℕ) (rz : Bool) (rand : ℕ → ℚ) :
    ∀ t ∈ planTimestamps d c rz rand,
      1/10 ≤ t ∧ t ≤ max (1/10) (d - 1/10) := by
  intro t ht
  rw [planTimestamps, List.mem_insertionSort, List.mem_map] at ht
  obtain ⟨i, _, rfl⟩ := ht
  exact clampTs_bounds _ _

/-- The planner's output is sorted ascending (it ends with a sort). -/
lemma planTimestamps_sorted (d : ℚ) (c : ℕ) (rz : Bool) (rand : ℕ → ℚ) :
    (planTimestamps d c rz rand).Sorted (· ≤ ·) :=
  List.sorted_insertionSort _ _

/-- With jitter disabled the clamped candidates are already ascending, so the
final sort is the identity and the planner's output is exactly the clamped
even-division formula at each index. -/
lemma planTimestamps_noJitter (d : ℚ) (c : ℕ) (rand : ℕ → ℚ) (hd : 0 < d) :
    planTimestamps d c false rand =
      (List.range c).map (fun (i : ℕ) => clampTs d (((i : ℚ) + 1) * d / ((c : ℚ) + 1))) := by
  have hraw : ∀ i : ℕ, rawTimestamp d c false rand i = ((i : ℚ) + 1) * d / (c + 1) := by
    intro i; simp only [rawTimestamp, if_neg Bool.false_ne_true]; ring
  have hsorted : ((List.range c).map
      (fun i => clampTs d (rawTimestamp d c false rand i))).Sorted (· ≤ ·) := by
    refine List.Pairwise.map _ ?_ (List.pairwise_lt_range c)
    intro a b hab
    refine clampTs_mono d ?_
    rw [hraw, hraw]
    have hnum : ((a : ℚ) + 1) * d ≤ ((b : ℚ) + 1) * d :=
      mul_le_mul_of_nonneg_right (by exact_mod_cast Nat.succ_le_succ hab.le) hd.le
    exact (div_le_div_iff_of_pos_right (by positivity)).2 hnum
  rw [planTimestamps, hsorted.insertionSort_eq]
  exact List.map_congr_left fun i _ => by rw [hraw]

/-- The progress sequence of a whole `extractFrames` run is a pure function
of `count`: `round(((k+1)/count) * 100)` for `k = 0, …, count-1`. -/
lemma extractFrames_progress (W H : ℕ) (d : ℚ) (c : ℕ) (rz : Bool)
    (scale : ℚ) (rand : ℕ → ℚ) (ctxOk : Bool) (enc : ℕ → Option ℕ) :
    (extractFrames W H d c rz scale rand ctxOk enc).progress =
      (List.range c).map (fun (k : ℕ) => jsRound (((k : ℚ) + 1) / (c : ℚ) * 100)) := by
  rw [extractFrames, extractLoop_progress, planTimestamps_length]
  exact List.map_congr_left fun k _ => by norm_num

/-! ### Claim theorems -/

/-- C1: with jitter disabled the planner returns exactly `count` timestamps,
the `i`-th (1-indexed, sorted order) equal to
`max(0.1, min(duration - 0.1, i * duration / (count + 1)))` — the lower bound
`0.1` is applied last; in particular `duration=10, count=3` yields
`[2.5, 5.0, 7.5]` and `duration=0.15, count=1` yields exactly `0.1`. -/
theorem C1_planner_formula (d : ℚ) (c : ℕ) (rand : ℕ → ℚ)
    (hd : 0 < d) (h1 : 1 ≤ c) (h2 : c ≤ 50) :
    (planTimestamps d c false rand).length = c ∧
    planTimestamps d c false rand =
      (List.range c).map
        (fun (i : ℕ) => max (1/10) (min (d - 1/10) (((i : ℚ) + 1) * d / ((c : ℚ) + 1)))) ∧
    planTimestamps 10 3 false (fun _ => 0) = [5/2, 5, 15/2] ∧
    planTimestamps (3/20) 1 false (fun _ => 0) = [1/10] := by
  refine ⟨planTimestamps_length _ _ _ _, ?_, by with_unfolding_all decide,
    by with_unfolding_all decide⟩
  rw [planTimestamps_noJitter d c rand hd]
  exact List.map_congr_left fun i _ => by rw [clampTs]

/-- Witness for C1 at `duration=10, count=3`. -/
theorem C1_planner_formula_witness :
    (0 : ℚ) < 10 ∧ (1 : ℕ) ≤ 3 ∧ (3 : ℕ) ≤ 50 ∧
    planTimestamps 10 3 false (fun _ => 0) = [5/2, 5, 15/2] :=
  ⟨by norm_num, by norm_num, by norm_num,
    (C1_planner_formula 10 3 (fun _ => 0) (by norm_num) (by norm_num)
      (by norm_num)).2.2.1⟩

/-- C2 counterexample: at `duration = 0.15, count = 1` (jitter off, every
encode succeeding) the single produced screenshot has timestamp `0.1`, which
does not lie in `[0.1, duration - 0.1] = [0.1, 0.05]`; and at
`duration = 0.3, count = 5` the batch timestamps are
`[0.1, 0.1, 0.15, 0.2, 0.2]`, which are not strictly ascending even though
jitter is disabled. -/
theorem C2_range_counterexample :
    ((extractFrames 640 480 (3/20) 1 false 100 (fun _ => 0) true
        (fun _ => some 0)).shots.map Screenshot.timestamp = [1/10]) ∧
    ¬ ((1/10 : ℚ) ≤ 3/20 - 1/10) ∧
    ((extractFrames 640 480 (3/10) 5 false 100 (fun _ => 0) true
        (fun _ => some 0)).shots.map Screenshot.timestamp
      = [1/10, 1/10, 3/20, 1/5, 1/5]) ∧
    ¬ List.Pairwise (· < ·)
        ((extractFrames 640 480 (3/10) 5 false 100 (fun _ => 0) true
          (fun _ => some 0)).shots.map Screenshot.timestamp) := by
  with_unfolding_all decide

/-- C2 (amended): every batch screenshot timestamp lies in
`[0.1, max(0.1, duration - 0.1)]` and within a batch timestamps are
non-decreasing (not necessarily strictly, even with jitter disabled); the
last-frame path produces the timestamp `max(0, duration - 0.1)`, which lies
in `[0.1, duration - 0.1]` whenever `duration ≥ 0.2`. -/
theorem C2_timestamp_invariant (W H : ℕ) (d : ℚ) (c : ℕ) (rz : Bool)
    (scale : ℚ) (rand : ℕ → ℚ) (ctxOk : Bool) (enc : ℕ → Option ℕ)
    (encOne : Option ℕ) (hd : 0 < d) (h1 : 1 ≤ c) (h2 : c ≤ 50) :
    (∀ s ∈ (extractFrames W H d c rz scale rand ctxOk enc).shots,
        1/10 ≤ s.timestamp ∧ s.timestamp ≤ max (1/10) (d - 1/10)) ∧
    List.Sorted (· ≤ ·)
      ((extractFrames W H d c rz scale rand ctxOk enc).shots.map
        Screenshot.timestamp) ∧
    (∀ s ∈ (handleProcessLastFrame W H d scale ctxOk encOne).result,
        s.timestamp = max 0 (d - 1/10)) ∧
    (1/5 ≤ d → 1/10 ≤ max 0 (d - 1/10) ∧ max 0 (d - 1/10) ≤ d - 1/10) := by
  refine ⟨?_, ?_, ?_, ?_⟩
  · intro s hs
    rw [extractFrames] at hs
    have hmem := (extractLoop_shots_mem W H scale c ctxOk enc
      (planTimestamps d c rz rand) 0 s hs).1
    exact planTimestamps_mem_bounds d c rz rand _ hmem
  · rw [extractFrames]
    exact (planTimestamps_sorted d c rz rand).sublist
      (extractLoop_timestamps_sublist W H scale c ctxOk enc _ 0)
  · intro s hs
    cases h : (captureFrame W H scale ctxOk encOne).blob with
    | none =>
      simp [handleProcessLastFrame, extractSpecificFrame, lastFrameTarget, h] at hs
    | some b =>
      simp [handleProcessLastFrame, extractSpecificFrame, lastFrameTarget, h] at hs
      rw [← hs]
      norm_num
  · intro h5
    rw [max_eq_right (by linarith)]
    exact ⟨by linarith, le_refl _⟩

/-- Witness for the amended C2 at concrete inputs. -/
theorem C2_timestamp_invariant_witness :
    (0 : ℚ) < 10 ∧ (1 : ℕ) ≤ 3 ∧ (3 : ℕ) ≤ 50 ∧
    List.Sorted (· ≤ ·)
      ((extractFrames 640 480 10 3 false 100 (fun _ => 0) true
        (fun _ => some 0)).shots.map Screenshot.timestamp) :=
  ⟨by norm_num, by norm_num, by norm_num,
    (C2_timestamp_invariant 640 480 10 3 false 100 (fun _ => 0) true
      (fun _ => some 0) (some 0) (by norm_num) (by norm_num) (by norm_num)).2.1⟩

/-- C3: `onProgress` is called exactly `count` times, the `i`-th call passing
`round(i / count * 100)`; the sequence is non-decreasing, every reported
value (in particular the first) is above 0, and the last is exactly 100. -/
theorem C3_progress_reporting (W H : ℕ) (d : ℚ) (c : ℕ) (rz : Bool)
    (scale : ℚ) (rand : ℕ → ℚ) (ctxOk : Bool) (enc : ℕ → Option ℕ)
    (h1 : 1 ≤ c) (h2 : c ≤ 50) :
    (extractFrames W H d c rz scale rand ctxOk enc).progress =
      (List.range c).map (fun (k : ℕ) => jsRound (((k : ℚ) + 1) / (c : ℚ) * 100)) ∧
    (extractFrames W H d c rz scale rand ctxOk enc).progress.length = c ∧
    List.Sorted (· ≤ ·) (extractFrames W H d c rz scale rand ctxOk enc).progress ∧
    (∀ p ∈ (extractFrames W H d c rz scale rand ctxOk enc).progress, 0 < p) ∧
    (extractFrames W H d c rz scale rand ctxOk enc).progress.getLast? = some 100 := by
  have hc : (0 : ℚ) < c := by exact_mod_cast h1
  have hc50 : (c : ℚ) ≤ 50 := by exact_mod_cast h2
  rw [extractFrames_progress]
  refine ⟨rfl, by simp, ?_, ?_, ?_⟩
  · refine List.Pairwise.map _ ?_ (List.pairwise_lt_range c)
    intro a b hab
    apply Int.floor_le_floor
    have : ((a : ℚ) + 1) / (c : ℚ) * 100 ≤ ((b : ℚ) + 1) / (c : ℚ) * 100 := by
      have hnum : ((a : ℚ) + 1) ≤ ((b : ℚ) + 1) := by
        exact_mod_cast Nat.succ_le_succ hab.le
      exact mul_le_mul_of_nonneg_right
        ((div_le_div_iff_of_pos_right hc).2 hnum) (by norm_num)
    linarith
  · intro p hp
    obtain ⟨k, _, rfl⟩ := List.mem_map.1 hp
    have hk0 : (0 : ℚ) ≤ (k : ℚ) := Nat.cast_nonneg k
    have hx : (1 : ℚ) ≤ ((k : ℚ) + 1) / (c : ℚ) * 100 := by
      rw [div_mul_eq_mul_div, le_div_iff₀ hc]
      linarith
    have : (1 : ℤ) ≤ jsRound (((k : ℚ) + 1) / (c : ℚ) * 100) := by
      rw [jsRound, Int.le_floor]
      push_cast
      linarith
    omega
  · obtain ⟨m, rfl⟩ : ∃ m, c = m + 1 := ⟨c - 1, by omega⟩
    rw [List.range_succ, List.map_append, List.map_cons, List.map_nil,
      List.getLast?_concat]
    have hm : ((m : ℚ) + 1) / ((m + 1 : ℕ) : ℚ) * 100 = 100 := by
      push_cast
      rw [div_self (by positivity), one_mul]
    rw [hm]
    have : jsRound 100 = 100 := by with_unfolding_all decide
    rw [this]

/-- Witness for C3 at `count = 3`. -/
theorem C3_progress_reporting_witness :
    (1 : ℕ) ≤ 3 ∧ (3 : ℕ) ≤ 50 ∧
    (extractFrames 640 480 10 3 false 100 (fun _ => 0) true
      (fun _ => some 0)).progress.getLast? = some 100 :=
  ⟨by norm_num, by norm_num,
    (C3_progress_reporting 640 480 10 3 false 100 (fun _ => 0) true
      (fun _ => some 0) (by norm_num) (by norm_num)).2.2.2.2⟩
/-- C4: with the rendering surface available, the batch returns at most
`count` screenshots — fewer than `count` exactly when some encode attempt
returned null; a null encode is skipped without aborting the loop (progress
still has `count` entries), returned timestamps stay ascending; with 6
requested and 1 failing encode the result has 5 screenshots while progress
still ends at 100 after 6 attempts. -/
theorem C4_partial_failure (W H : ℕ) (d : ℚ) (c : ℕ) (rz : Bool) (scale : ℚ)
    (rand : ℕ → ℚ) (enc : ℕ → Option ℕ) (h1 : 1 ≤ c) (h2 : c ≤ 50) :
    (extractFrames W H d c rz scale rand true enc).shots.length ≤ c ∧
    ((extractFrames W H d c rz scale rand true enc).shots.length < c ↔
      ∃ k < c, enc k = none) ∧
    List.Sorted (· ≤ ·)
      ((extractFrames W H d c rz scale rand true enc).shots.map
        Screenshot.timestamp) ∧
    (extractFrames W H d c rz scale rand true enc).progress.length = c ∧
    (extractFrames 640 480 10 6 false 100 (fun _ => 0) true
        (fun k => if k = 2 then none else some k)).shots.length = 5 ∧
    (extractFrames 640 480 10 6 false 100 (fun _ => 0) true
        (fun k => if k = 2 then none else some k)).progress.getLast? = some 100 ∧
    (extractFrames 640 480 10 6 false 100 (fun _ => 0) true
        (fun k => if k = 2 then none else some k)).progress.length = 6 := by
  refine ⟨?_, ?_, ?_, ?_, by with_unfolding_all decide,
    by with_unfolding_all decide, by with_unfolding_all decide⟩
  · rw [extractFrames]
    have h := extractLoop_length_le W H scale c true enc
      (planTimestamps d c rz rand) 0
    rwa [planTimestamps_length] at h
  · rw [extractFrames]
    have h := extractLoop_length_lt_iff W H scale c enc
      (planTimestamps d c rz rand) 0
    rw [planTimestamps_length] at h
    simpa using h
  · rw [extractFrames]
    exact (planTimestamps_sorted d c rz rand).sublist
      (extractLoop_timestamps_sublist W H scale c true enc _ 0)
  · rw [extractFrames_progress]
    simp

/-- Witness for C4: 6 requested, the encode at index 2 failing. -/
theorem C4_partial_failure_witness :
    (1 : ℕ) ≤ 6 ∧ (6 : ℕ) ≤ 50 ∧
    (extractFrames 640 480 10 6 false 100 (fun _ => 0) true
      (fun k => if k = 2 then none else some k)).shots.length = 5 :=
  ⟨by norm_num, by norm_num,
    (C4_partial_failure 640 480 10 6 false 100 (fun _ => 0)
      (fun k => if k = 2 then none else some k) (by norm_num)
      (by norm_num)).2.2.2.2.1⟩

/-- C5: the last-frame extraction requests exactly one seek, to
`max(0, duration - 0.1)`, and its result is null exactly when the capture
produced a null blob, otherwise exactly one screenshot whose timestamp is the
requested time. The planner is bypassed entirely: `extractSpecificFrame` and
`handleProcessLastFrame` are defined without reference to `planTimestamps`,
and the seek trace below is independent of any count or jitter input. -/
theorem C5_last_frame (W H : ℕ) (d scale : ℚ) (ctxOk : Bool)
    (enc : Option ℕ) :
    (handleProcessLastFrame W H d scale ctxOk enc).seeks = [max 0 (d - 1/10)] ∧
    (handleProcessLastFrame W H d scale ctxOk enc).result =
      ((captureFrame W H scale ctxOk enc).blob).map
        (fun b => { blob := b, timestamp := max 0 (d - 1/10),
                    fileName := "frame_last_" ++ hhmmss (max 0 (d - 1/10)) ++ ".jpg" }) := by
  cases h : (captureFrame W H scale ctxOk enc).blob <;>
    simp [handleProcessLastFrame, extractSpecificFrame, lastFrameTarget, h]

/-- C6 counterexample: `captureFrame` clamps `scale / 100`, not `scale`
itself: at native width 200 and `scale = 50` the code produces width
`floor(200 * 0.5) = 100`, while the claim's formula — the scale argument
itself clamped to `[0.1, 1.0]`, hence `min 1 50 = 1` — would give `200`. -/
theorem C6_scale_counterexample :
    (captureFrame 200 100 50 true (some 0)).width = 100 ∧
    (⌊(200 : ℚ) * max (1/10) (min 1 (50 : ℚ))⌋.toNat = 200) ∧
    (100 : ℕ) ≠ 200 := by
  with_unfolding_all decide

/-- C6 (amended): the output raster is
`floor(W * s) × floor(H * s)` with `s = clamp(scale / 100, 0.1, 1.0)` — the
scale argument is a percentage; `scale = 100` yields the native dimensions
and `scale = 50` yields the floored halves. -/
theorem C6_raster_dimensions (W H : ℕ) (scale : ℚ) (enc : Option ℕ) :
    (captureFrame W H scale true enc).width =
      (⌊(W : ℚ) * max (1/10) (min 1 (scale / 100))⌋).toNat ∧
    (captureFrame W H scale true enc).height =
      (⌊(H : ℚ) * max (1/10) (min 1 (scale / 100))⌋).toNat ∧
    (captureFrame W H 100 true enc).width = W ∧
    (captureFrame W H 100 true enc).height = H ∧
    (captureFrame W H 50 true enc).width = (⌊(W : ℚ) * (5/10)⌋).toNat ∧
    (captureFrame W H 50 true enc).height = (⌊(H : ℚ) * (5/10)⌋).toNat := by
  have h100 : max (1/10 : ℚ) (min 1 ((100 : ℚ) / 100)) = 1 := by
    rw [show ((100 : ℚ) / 100) = 1 by norm_num, min_self,
      max_eq_right (by norm_num : (1/10 : ℚ) ≤ 1)]
  have h50 : max (1/10 : ℚ) (min 1 ((50 : ℚ) / 100)) = 5/10 := by
    rw [min_eq_right (by norm_num : ((50 : ℚ) / 100) ≤ 1),
      max_eq_right (by norm_num : (1/10 : ℚ) ≤ 50/100)]
    norm_num
  refine ⟨rfl, rfl, ?_, ?_, ?_, ?_⟩
  · show (⌊(W : ℚ) * max (1/10) (min 1 ((100 : ℚ) / 100))⌋).toNat = W
    rw [h100, mul_one, Int.floor_natCast]
    simp
  · show (⌊(H : ℚ) * max (1/10) (min 1 ((100 : ℚ) / 100))⌋).toNat = H
    rw [h100, mul_one, Int.floor_natCast]
    simp
  · show (⌊(W : ℚ) * max (1/10) (min 1 ((50 : ℚ) / 100))⌋).toNat =
      (⌊(W : ℚ) * (5/10)⌋).toNat
    rw [h50]
  · show (⌊(H : ℚ) * max (1/10) (min 1 ((50 : ℚ) / 100))⌋).toNat =
      (⌊(H : ℚ) * (5/10)⌋).toNat
    rw [h50]

/-- C7 counterexample: with the 2D context unavailable the batch run does NOT
propagate a failure — it seeks all 3 planned timestamps, reports progress
up to 100, and silently returns an empty result: the null capture is skipped
per-frame, contradicting the claim that it is never silently skipped. -/
theorem C7_surface_failure_counterexample :
    (extractFrames 640 480 10 3 false 100 (fun _ => 0) false
      (fun _ => some 0)).shots = [] ∧
    (extractFrames 640 480 10 3 false 100 (fun _ => 0) false
      (fun _ => some 0)).progress = [33, 67, 100] ∧
    (extractFrames 640 480 10 3 false 100 (fun _ => 0) false
      (fun _ => some 0)).seeks = [5/2, 5, 15/2] := by
  with_unfolding_all decide

/-- C7 (amended): `captureFrame` yields a null blob whenever the rendering
surface cannot be acquired, but the batch orchestrator treats that exactly
like a per-frame encode failure: every frame is skipped silently, progress is
still reported for all `count` attempts, every timestamp is still seeked, and
the run completes normally with an empty result (the single-frame path
surfaces it as a null result) — it is not propagated as a run failure. -/
theorem C7_surface_failure_skipped (W H : ℕ) (scale d : ℚ) (c : ℕ)
    (rz : Bool) (rand : ℕ → ℚ) (enc : Option ℕ) (encB : ℕ → Option ℕ) :
    (captureFrame W H scale false enc).blob = none ∧
    (extractFrames W H d c rz scale rand false encB).shots = [] ∧
    (extractFrames W H d c rz scale rand false encB).progress.length = c ∧
    (extractFrames W H d c rz scale rand false encB).seeks =
      planTimestamps d c rz rand ∧
    (handleProcessLastFrame W H d scale false enc).result = none := by
  refine ⟨by simp [captureFrame], ?_, ?_, ?_, ?_⟩
  · rw [extractFrames]
    exact extractLoop_shots_ctxFalse W H scale c encB _ 0
  · rw [extractFrames_progress]
    simp
  · rw [extractFrames]
    exact extractLoop_seeks W H scale c false encB _ 0
  · simp [handleProcessLastFrame, extractSpecificFrame, captureFrame]

/-- C8: with jitter enabled, each candidate timestamp deviates from its
unjittered counterpart by at most `0.4 * duration / (count + 1)` before
clamping, for every random draw in `[0, 1)`. -/
theorem C8_jitter_bound (d : ℚ) (c i : ℕ) (rand : ℕ → ℚ) (hd : 0 < d)
    (h0 : 0 ≤ rand i) (h1 : rand i < 1) :
    |rawTimestamp d c true rand i - rawTimestamp d c false rand i| ≤
      (4/10) * (d / ((c : ℚ) + 1)) := by
  have hdiff : rawTimestamp d c true rand i - rawTimestamp d c false rand i =
      (rand i - 1/2) * (d / ((c : ℚ) + 1) * (8/10)) := by
    simp only [rawTimestamp]
    push_cast
    ring
  rw [hdiff]
  have h2 : |rand i - 1/2| ≤ 1/2 := abs_le.2 ⟨by linarith, by linarith⟩
  calc |(rand i - 1/2) * (d / ((c : ℚ) + 1) * (8/10))|
      = |rand i - 1/2| * (d / ((c : ℚ) + 1) * (8/10)) := by
        rw [abs_mul,
          abs_of_nonneg (show (0 : ℚ) ≤ d / ((c : ℚ) + 1) * (8/10) by positivity)]
    _ ≤ (1/2) * (d / ((c : ℚ) + 1) * (8/10)) :=
        mul_le_mul_of_nonneg_right h2 (by positivity)
    _ = (4/10) * (d / ((c : ℚ) + 1)) := by ring

/-- Witness for C8 at `duration=10, count=3, draw=0` (where the bound is
attained with equality: the offset is `-0.4 * step = -1`). -/
theorem C8_jitter_bound_witness :
    (0 : ℚ) < 10 ∧ (0 : ℚ) ≤ 0 ∧ (0 : ℚ) < 1 ∧
    |rawTimestamp 10 3 true (fun _ => 0) 0 - rawTimestamp 10 3 false (fun _ => 0) 0| ≤
      (4/10) * (10 / (((3 : ℕ) : ℚ) + 1)) :=
  ⟨by norm_num, le_refl 0, by norm_num,
    C8_jitter_bound 10 3 0 (fun _ => 0) (by norm_num) (le_refl 0) (by norm_num)⟩

/-- C9: each screenshot's file name is the mode prefix (`frame_` for batch,
`frame_last_` for last-frame) followed by the timestamp's `HH-MM-SS`
encoding in whole seconds and `.jpg`; batch timestamps 2.5, 5.0, 7.5 produce
`frame_00-00-02.jpg`, `frame_00-00-05.jpg`, `frame_00-00-07.jpg`. -/
theorem C9_filenames (W H : ℕ) (d t : ℚ) (c : ℕ) (rz : Bool) (scale : ℚ)
    (rand : ℕ → ℚ) (ctxOk : Bool) (enc : ℕ → Option ℕ) (encOne : Option ℕ) :
    (∀ s ∈ (extractFrames W H d c rz scale rand ctxOk enc).shots,
        s.fileName = "frame_" ++ hhmmss s.timestamp ++ ".jpg") ∧
    (∀ s ∈ (extractSpecificFrame W H t scale ctxOk encOne).result,
        s.fileName = "frame_last_" ++ hhmmss s.timestamp ++ ".jpg") ∧
    ((extractFrames 640 480 10 3 false 100 (fun _ => 0) true
        (fun _ => some 0)).shots.map Screenshot.fileName =
      ["frame_00-00-02.jpg", "frame_00-00-05.jpg", "frame_00-00-07.jpg"]) := by
  refine ⟨?_, ?_, by with_unfolding_all decide⟩
  · intro s hs
    rw [extractFrames] at hs
    exact (extractLoop_shots_mem W H scale c ctxOk enc
      (planTimestamps d c rz rand) 0 s hs).2
  · intro s hs
    cases h : (captureFrame W H scale ctxOk encOne).blob with
    | none => simp [extractSpecificFrame, h] at hs
    | some b =>
      simp [extractSpecificFrame, h] at hs
      rw [← hs]

/-- Witness for C9 at the `duration=10, count=3` batch. -/
theorem C9_filenames_witness :
    (extractFrames 640 480 10 3 false 100 (fun _ => 0) true
      (fun _ => some 0)).shots.map Screenshot.fileName =
      ["frame_00-00-02.jpg", "frame_00-00-05.jpg", "frame_00-00-07.jpg"] :=
  (C9_filenames 640 480 10 0 3 false 100 (fun _ => 0) true (fun _ => some 0)
    (some 0)).2.2

/-- C10: the progress sequence of `extractFrames` depends only on `count` —
two runs with the same `count` but different dimensions, duration, jitter
flag, random draws, scale, context availability, and encode outcomes report
identical progress values, namely `round(100 * (k+1) / count)`. -/
theorem C10_progress_noninterference (Wa Ha Wb Hb : ℕ) (da db : ℚ) (c : ℕ)
    (rza rzb : Bool) (sa sb : ℚ) (ra rb : ℕ → ℚ) (xa xb : Bool)
    (ea eb : ℕ → Option ℕ) :
    (extractFrames Wa Ha da c rza sa ra xa ea).progress =
      (extractFrames Wb Hb db c rzb sb rb xb eb).progress ∧
    (extractFrames Wa Ha da c rza sa ra xa ea).progress =
      (List.range c).map (fun (k : ℕ) => jsRound (((k : ℚ) + 1) / (c : ℚ) * 100)) := by
  rw [extractFrames_progress, extractFrames_progress]
  exact ⟨rfl, rfl⟩
